import Mathlib

/-!
Verification development for the gcal-mcp credential store and calendar tool
layer (`src/calendar`, `src/crypto`, `src/db`, `src/tools`).

The TypeScript sources are shallowly embedded below:

* account rows and the SQLite queries of `resolveAccount` become pure
  functions over an explicit list of rows;
* the SQL `LIKE` operator and `LOWER`, the JavaScript `trim`/`toLowerCase`
  calls, and UTF-8 encoding are modelled character-by-character; the two
  case folds are kept distinct, because the source folds the key with the
  Unicode-aware JavaScript `toLowerCase()` while SQLite's `LOWER` and its
  default `LIKE` fold ASCII letters only;
* AES-256-GCM is embedded as the NIST SP 800-38D GCM construction over an
  explicit block-cipher parameter `aes`; the AES-256 core itself lives in
  OpenSSL, outside this repository, and is therefore kept as a parameter;
* fallible operations return `Except`/`Option` values, and the SQLite
  transaction primitives behind `tx` are modelled as a committed snapshot
  plus an uncommitted working copy.
-/

deriving instance DecidableEq for Except

/-- Whitespace test used by the model of JavaScript `String.prototype.trim`
(ASCII whitespace characters). -/
def isWsChar (c : Char) : Bool :=
  c = ' ' || c = '\t' || c = '\n' || c = '\r' || c = '\x0b' || c = '\x0c'

/-- Drop leading and trailing whitespace from a character list. -/
def trimChars (l : List Char) : List Char :=
  ((l.dropWhile isWsChar).reverse.dropWhile isWsChar).reverse

/-- Model of JavaScript `key.trim()` from `resolveAccount`. -/
def jsTrim (s : String) : String :=
  String.mk (trimChars s.data)

/-- Model of SQLite `LOWER(...)` on a TEXT column: ASCII-only case folding
(`A`-`Z`), every other character left unchanged; SQLite's default `LIKE` is
likewise case-insensitive for ASCII only, so after `LOWER` on the column and
`toLowerCase()` on the key the comparison is character-exact. -/
def foldChars (s : String) : List Char :=
  s.data.map Char.toLower

/-- Model of the key-side JavaScript `toLowerCase()` — the Unicode simple
lowercase mapping — implemented exactly for code points below U+0100
(Basic Latin and Latin-1, including `µ` → `μ` and `À`-`Þ` → `à`-`þ` with
`×` fixed); code points above U+00FF are left unchanged here, and the
theorems below apply this function only to ASCII or Latin-1 inputs, where
the model is exact. -/
def jsCharLower (c : Char) : Char :=
  let n := c.toNat
  if 65 ≤ n ∧ n ≤ 90 then Char.ofNat (n + 32)
  else if n = 181 then Char.ofNat 956
  else if 192 ≤ n ∧ n ≤ 222 ∧ n ≠ 215 then Char.ofNat (n + 32)
  else c

/-- Model of `trimmed.toLowerCase()` applied to the caller's key. -/
def jsLowerChars (s : String) : List Char :=
  s.data.map jsCharLower

/-- All suffixes of a character list, the list itself included. -/
def suffixesOf : List Char → List (List Char)
  | [] => [[]]
  | c :: s => (c :: s) :: suffixesOf s

/-- Model of the SQLite `LIKE` pattern matcher (default, no ESCAPE clause):
`%` matches any character sequence — realized as matching the rest of the
pattern against some suffix of the subject — `_` matches exactly one
character, and any other pattern character matches itself.  Both sides have
already been case-folded by `LOWER`, so the matcher itself is literal. -/
def likeMatch : List Char → List Char → Bool
  | [], s => s.isEmpty
  | p :: ps, s =>
    if p = '%' then
      (suffixesOf s).any (fun s2 => likeMatch ps s2)
    else
      match s with
      | [] => false
      | c :: s2 => (p = '_' || p = c) && likeMatch ps s2

/-- Model of `LOWER(col) LIKE '%' || q || '%'` from the fuzzy tier of
`resolveAccount` (`tools.ts`): the bound parameter is the whole pattern
`%q%`, so `%`/`_` characters inside `q` keep their wildcard meaning. -/
def likeContains (q s : List Char) : Bool :=
  likeMatch ('%' :: (q ++ ['%'])) s

/-- Account row as selected by the resolver queries
(`SELECT id,email,google_user_id,display_name,scopes_json FROM accounts`). -/
structure AccountRow where
  id : String
  email : String
  google_user_id : String
  display_name : Option String
  scopes_json : String
deriving Repr, DecidableEq

/-- Error taxonomy of the calendar module.  The source throws plain `Error`
objects; each constructor stands for one of its distinct messages (see
`CalError.message`). -/
inductive CalError where
  | noAccounts
  | ambiguous (key : String) (candidates : List String)
  | notFound (key : String)
  | credentialsNotFound
  | databaseLocked
  | authFailure
  | readOnlyMode
deriving Repr, DecidableEq

/-- Exact error message strings thrown by the source (`tools.ts`); the
`ambiguous` constructor with an empty candidate list is the empty-key
"Multiple accounts linked" error, with a non-empty list the fuzzy-tier
ambiguity error. -/
def CalError.message : CalError → String
  | .noAccounts => "No linked accounts. Use the CLI to add one."
  | .ambiguous k ms =>
    if ms.isEmpty then
      "Multiple accounts linked. Specify an email or id, or call list_accounts to choose."
    else
      "Multiple accounts match \x27" ++ k ++ "\x27: " ++ String.intercalate ", " ms ++
        ". Provide an exact email or id, or call list_accounts."
  | .notFound k =>
    "Account not found for \x27" ++ k ++ "\x27. Call list_accounts to see available accounts."
  | .credentialsNotFound => "Account credentials not found"
  | .databaseLocked => "Database is locked and password has not been provided"
  | .authFailure => "Unsupported state or unable to authenticate data"
  | .readOnlyMode => "Server is in read-only mode"

/-- Row of the `credentials` table as selected by `getCalendarClient`
(`SELECT refresh_token, refresh_token_ct, refresh_token_iv, refresh_token_tag
FROM credentials WHERE account_id=?`).  Nullable BLOB columns are modelled as
byte lists; the nullable TEXT column keeps its `NULL` / string distinction
because JavaScript truthiness separates `NULL` and `''` from other values. -/
structure CredRow where
  account_id : String
  refresh_token : Option String
  refresh_token_ct : List Nat
  refresh_token_iv : List Nat
  refresh_token_tag : List Nat
deriving Repr, DecidableEq

/-- SQLite store contents used by the calendar module: the `accounts` table
rows in rowid order and the `credentials` table rows. -/
structure DBModel where
  accounts : List AccountRow
  credentials : List CredRow
deriving Repr, DecidableEq

/-- Byte-order comparison of two character lists; stands for SQLite's BINARY
collation on UTF-8 text (UTF-8 byte order coincides with code-point order). -/
def charListLe : List Char → List Char → Bool
  | [], _ => true
  | _ :: _, [] => false
  | a :: as, b :: bs =>
    if a.toNat < b.toNat then true
    else if a.toNat = b.toNat then charListLe as bs
    else false

/-- Ordering relation of `ORDER BY email` ascending. -/
def emailLe (a b : AccountRow) : Prop :=
  charListLe a.email.data b.email.data = true

instance : DecidableRel emailLe := fun a b =>
  inferInstanceAs (Decidable (charListLe a.email.data b.email.data = true))

/-- Model of `ORDER BY email` on a result set. -/
def sortByEmail (l : List AccountRow) : List AccountRow :=
  List.insertionSort emailLe l

/-- Model of `listAccounts` (`SELECT ... FROM accounts ORDER BY email`). -/
def listAccounts (db : DBModel) : List AccountRow :=
  sortByEmail db.accounts

/-- Predicate of the exact-match query
`WHERE id=? OR email=?` with both parameters bound to the trimmed key. -/
def exactPred (t : String) (a : AccountRow) : Bool :=
  a.id = t || a.email = t

/-- Predicate of the fuzzy-match query
`WHERE LOWER(email) LIKE ? OR LOWER(COALESCE(display_name,'')) LIKE ?` with
both parameters bound to `'%' ++ trimmed.toLowerCase() ++ '%'`: the key is
folded by the JavaScript (Unicode) lowercase while the columns are folded by
SQLite's ASCII-only `LOWER`, so the fold is asymmetric for non-ASCII
letters. -/
def fuzzyLike (t : String) (a : AccountRow) : Bool :=
  likeContains (jsLowerChars t) (foldChars a.email) ||
    likeContains (jsLowerChars t) (foldChars (a.display_name.getD ""))

/-- Candidate list of the fuzzy tier: the fuzzy-match query rows in
`ORDER BY email` order. -/
def fuzzyCandidates (db : DBModel) (t : String) : List AccountRow :=
  (sortByEmail db.accounts).filter (fuzzyLike t)

/-- The spec-side fuzzy predicate, written from the specification text:
the case-folded key is a substring of the case-folded email or of the
case-folded display name (missing display name read as the empty string).
Used to compare the source's `LIKE`-based tier against the spec's words. -/
def specFuzzy (t : String) (a : AccountRow) : Bool :=
  decide (foldChars t <:+: foldChars a.email) ||
    decide (foldChars t <:+: foldChars (a.display_name.getD ""))

/-- Model of `resolveAccount` from `calendar.ts`: empty-key default tier,
then the exact tier (`get` returns the first matching row in table order),
then the fuzzy tier over the `ORDER BY email` candidate list. -/
def resolveAccount (db : DBModel) (key : Option String) : Except CalError AccountRow :=
  let trimmed := jsTrim (key.getD "")
  if trimmed = "" then
    match listAccounts db with
    | [] => .error .noAccounts
    | [a] => .ok a
    | _ => .error (.ambiguous trimmed [])
  else
    match db.accounts.find? (exactPred trimmed) with
    | some a => .ok a
    | none =>
      match fuzzyCandidates db trimmed with
      | [a] => .ok a
      | [] => .error (.notFound trimmed)
      | l => .error (.ambiguous trimmed (l.map (fun a => a.email)))

/-- UTF-8 encoding of one character (standard 1-4 byte encoding). -/
def charUtf8 (c : Char) : List Nat :=
  let n := c.toNat
  if n < 128 then [n]
  else if n < 2048 then [192 + n / 64, 128 + n % 64]
  else if n < 65536 then [224 + n / 4096, 128 + n / 64 % 64, 128 + n % 64]
  else [240 + n / 262144, 128 + n / 4096 % 64, 128 + n / 64 % 64, 128 + n % 64]

/-- UTF-8 bytes of a string; model of `Buffer.from(s)` / the bytes a TEXT
column holds. -/
def utf8Bytes (s : String) : List Nat :=
  s.data.flatMap charUtf8

/-- Per-account associated-data string built by `getCalendarClient`. -/
def aadFor (accountId : String) : String :=
  "credentials.refresh_token:" ++ accountId ++ ":v1"

/-- Big-endian byte list to natural number (GCM bit strings are MSB-first). -/
def beBytesToNat (bs : List Nat) : Nat :=
  bs.foldl (fun acc b => acc * 256 + b % 256) 0

/-- Big-endian bytes of a natural number, fixed width `len`. -/
def natToBeBytes (len n : Nat) : List Nat :=
  (List.range len).map (fun i => n / 256 ^ (len - 1 - i) % 256)

/-- GCM reduction constant `R = 11100001 || 0^120`. -/
def gf128R : Nat := 225 * 2 ^ 120

/-- One step of the GF(2^128) multiplication loop of SP 800-38D. -/
def gf128Step (v : Nat) : Nat :=
  if v % 2 = 1 then v / 2 ^^^ gf128R else v / 2

/-- GF(2^128) product of two blocks (SP 800-38D algorithm 1, bit 0 = MSB). -/
def gf128Mul (x y : Nat) : Nat :=
  ((List.range 128).foldl
      (fun zv i =>
        ((if x / 2 ^ (127 - i) % 2 = 1 then zv.1 ^^^ zv.2 else zv.1), gf128Step zv.2))
      ((0 : Nat), y)).1

/-- GHASH over a block sequence with hash subkey `h`. -/
def ghashBlocks (h : Nat) (blocks : List Nat) : Nat :=
  blocks.foldl (fun y b => gf128Mul (y ^^^ b) h) 0

/-- Split a byte string into 128-bit blocks, zero-padding the last block. -/
def chunkBlocks : List Nat → List Nat
  | [] => []
  | b1 :: b2 :: b3 :: b4 :: b5 :: b6 :: b7 :: b8 ::
      b9 :: b10 :: b11 :: b12 :: b13 :: b14 :: b15 :: b16 :: rest =>
    beBytesToNat [b1, b2, b3, b4, b5, b6, b7, b8, b9, b10, b11, b12, b13, b14, b15, b16] ::
      chunkBlocks rest
  | bs => [beBytesToNat (bs ++ List.replicate (16 - bs.length) 0)]

/-- Pre-counter block `J0 = IV || 0^31 || 1` for a 12-byte IV. -/
def gcmJ0 (iv : List Nat) : Nat :=
  beBytesToNat iv * 2 ^ 32 + 1

/-- Increment of the low 32 bits of a counter block. -/
def inc32 (b : Nat) : Nat :=
  b / 2 ^ 32 * 2 ^ 32 + (b % 2 ^ 32 + 1) % 2 ^ 32

/-- Byte `i` of the GCM CTR keystream for block cipher `aes`, key and IV. -/
def gcmKsByte (aes : List Nat → Nat → Nat) (key iv : List Nat) (i : Nat) : Nat :=
  aes key (inc32^[i / 16 + 1] (gcmJ0 iv)) / 256 ^ (15 - i % 16) % 256

/-- XOR a byte list against keystream bytes starting at stream offset `i`. -/
def xorKeystream (ks : Nat → Nat) : Nat → List Nat → List Nat
  | _, [] => []
  | i, b :: rest => (b ^^^ ks i) :: xorKeystream ks (i + 1) rest

/-- Length block `len64(A) || len64(C)` of GHASH. -/
def gcmLenBlock (aadLen ctLen : Nat) : Nat :=
  aadLen * 8 % 2 ^ 64 * 2 ^ 64 + ctLen * 8 % 2 ^ 64

/-- Authentication tag of AES-GCM as a 128-bit block:
`GHASH_H(pad(A) || pad(C) || len) XOR E_K(J0)`. -/
def gcmTagNat (aes : List Nat → Nat → Nat) (key iv aad ct : List Nat) : Nat :=
  ghashBlocks (aes key 0)
      (chunkBlocks aad ++ chunkBlocks ct ++ [gcmLenBlock aad.length ct.length]) ^^^
    aes key (gcmJ0 iv)

/-- Model of `encryptAesGcm` from `crypto.ts`.  The source draws the 12-byte
IV from `randomBytes(12)`; the IV is passed explicitly here, standing for
that random draw, and is echoed in the result triple `(ct, iv, tag)` exactly
as the source returns it.  The AES-256 block cipher `aes` is the external
OpenSSL primitive. -/
def encryptAesGcm (aes : List Nat → Nat → Nat) (key iv pt aad : List Nat) :
    List Nat × List Nat × List Nat :=
  let ct := xorKeystream (gcmKsByte aes key iv) 0 pt
  (ct, iv, natToBeBytes 16 (gcmTagNat aes key iv aad ct))

/-- Model of `decryptAesGcm` from `crypto.ts`: recompute the tag over the
received ciphertext and associated data and release the CTR-decrypted
plaintext only when it matches; `none` is the thrown authentication error. -/
def decryptAesGcm (aes : List Nat → Nat → Nat) (key iv tag ct aad : List Nat) :
    Option (List Nat) :=
  if natToBeBytes 16 (gcmTagNat aes key iv aad ct) = tag then
    some (xorKeystream (gcmKsByte aes key iv) 0 ct)
  else
    none

/-- JavaScript truthiness of the nullable `refresh_token` TEXT column:
`NULL` and the empty string are falsy, any other string is truthy. -/
def tokenTruthy : Option String → Bool
  | none => false
  | some s => !(s = "")

/-- Configuration record of the calendar module (`CalendarConfig` in
`calendar.ts`): store contents, optional DEK and the read-only flag. -/
structure CalendarConfig where
  db : DBModel
  dek : Option (List Nat)
  readOnly : Bool

/-- Model of `getCalendarClient` up to the point the usable refresh secret is
known; the OAuth client construction that follows only wraps this secret, so
the client is represented by the secret's bytes.  Plaintext tokens are taken
directly when truthy; otherwise a missing DEK is the locked-database error
and an AEAD failure on the encrypted columns is the authentication error. -/
def getCalendarClient (aes : List Nat → Nat → Nat) (cfg : CalendarConfig)
    (accountId : String) : Except CalError (List Nat) :=
  match cfg.db.credentials.find? (fun r => r.account_id = accountId) with
  | none => .error .credentialsNotFound
  | some cred =>
    if tokenTruthy cred.refresh_token then
      .ok (utf8Bytes (cred.refresh_token.getD ""))
    else
      match cfg.dek with
      | none => .error .databaseLocked
      | some dek =>
        match decryptAesGcm aes dek cred.refresh_token_iv cred.refresh_token_tag
            cred.refresh_token_ct (utf8Bytes (aadFor accountId)) with
        | some pt => .ok pt
        | none => .error .authFailure

/-- Model of `listEvents`: obtain a client, then delegate to the remote
calendar API (external collaborator `remote`, fed the secret and the request
parameters; its response type is opaque). -/
def listEvents {β γ : Type} (remote : List Nat → String → β → γ)
    (aes : List Nat → Nat → Nat) (cfg : CalendarConfig)
    (accountId calendarId : String) (opts : β) : Except CalError γ :=
  (getCalendarClient aes cfg accountId).map (fun tok => remote tok calendarId opts)

/-- Model of `getEvent`. -/
def getEvent {γ : Type} (remote : List Nat → String → String → γ)
    (aes : List Nat → Nat → Nat) (cfg : CalendarConfig)
    (accountId calendarId eventId : String) : Except CalError γ :=
  (getCalendarClient aes cfg accountId).map (fun tok => remote tok calendarId eventId)

/-- Model of `createEvent`: the read-only gate precedes the client lookup. -/
def createEvent {β γ : Type} (remote : List Nat → String → β → γ)
    (aes : List Nat → Nat → Nat) (cfg : CalendarConfig)
    (accountId calendarId : String) (event : β) : Except CalError γ :=
  if cfg.readOnly then .error .readOnlyMode
  else (getCalendarClient aes cfg accountId).map (fun tok => remote tok calendarId event)

/-- Model of `updateEvent`: the read-only gate precedes the client lookup. -/
def updateEvent {β γ : Type} (remote : List Nat → String → String → β → γ)
    (aes : List Nat → Nat → Nat) (cfg : CalendarConfig)
    (accountId calendarId eventId : String) (patch : β) : Except CalError γ :=
  if cfg.readOnly then .error .readOnlyMode
  else (getCalendarClient aes cfg accountId).map
    (fun tok => remote tok calendarId eventId patch)

/-- Model of `deleteEvent`: the read-only gate precedes the client lookup;
on success the source performs the remote delete and returns `{ ok: true }`. -/
def deleteEvent {γ : Type} (remote : List Nat → String → String → γ)
    (aes : List Nat → Nat → Nat) (cfg : CalendarConfig)
    (accountId calendarId eventId : String) : Except CalError Bool :=
  if cfg.readOnly then .error .readOnlyMode
  else (getCalendarClient aes cfg accountId).map
    (fun tok => (fun _ => true) (remote tok calendarId eventId))

/-- KDF cost parameters of `deriveKek` (`crypto.ts`). -/
structure KdfParams where
  N : Nat
  r : Nat
  p : Nat
  dkLen : Nat

/-- Failure of the external scrypt call, classified the way `deriveKek`
classifies it: a memory-ceiling failure (message matching
`/memory limit exceeded/i` or code `ERR_CRYPTO_SCRYPT_INVALID_PARAMETER`)
or any other error. -/
inductive KdfError where
  | memoryExceeded
  | other (msg : String)
deriving Repr, DecidableEq

/-- The 64 MiB floor `baseMax` of `deriveKek`. -/
def kdfBaseMax : Nat := 64 * 1024 * 1024

/-- Model of `deriveKek` from `crypto.ts`.  The external `crypto.scrypt`
call (password, salt and the cost parameters are fixed by the caller) is the
parameter `scryptImpl`, a function of the requested `maxmem` ceiling.  The
routine estimates `128 * N * r` bytes, asks for `max(baseMax, 2 * estimate)`,
and on a memory-ceiling failure retries exactly once with
`max(4 * baseMax, 8 * estimate)`; any other failure propagates unchanged. -/
def deriveKek (scryptImpl : Nat → Except KdfError (List Nat)) (params : KdfParams) :
    Except KdfError (List Nat) :=
  let estimated := 128 * params.N * params.r
  match scryptImpl (max kdfBaseMax (estimated * 2)) with
  | .ok key => .ok key
  | .error .memoryExceeded => scryptImpl (max (kdfBaseMax * 4) (estimated * 8))
  | .error (.other m) => .error (.other m)

/-- Persistent store as seen through SQLite transactions: the committed
snapshot other processes observe, and the working copy of an open
transaction (`none` when no transaction is open). -/
structure Store (σ : Type) where
  committed : σ
  working : Option σ
deriving Repr, DecidableEq

/-- Model of `BEGIN IMMEDIATE`: open a working copy of the committed state. -/
def beginImmediate {σ : Type} (st : Store σ) : Store σ :=
  { st with working := some st.committed }

/-- Model of `COMMIT`: the working copy becomes the committed snapshot. -/
def commitTx {σ : Type} : Store σ → Store σ
  | ⟨c, none⟩ => ⟨c, none⟩
  | ⟨_, some w⟩ => ⟨w, none⟩

/-- Model of `ROLLBACK`: the working copy is discarded. -/
def rollbackTx {σ : Type} (st : Store σ) : Store σ :=
  { st with committed := st.committed, working := none }

/-- Run a transaction body against the open working copy; the body is a
sequence of store mutations that may fail. -/
def runInTx {σ ε : Type} (st : Store σ) (body : σ → Except ε σ) :
    Except ε (Store σ) :=
  match st.working with
  | some w => (body w).map (fun w2 => { st with working := some w2 })
  | none => .ok st

/-- Model of `tx` from `db.ts`: `BEGIN IMMEDIATE`, run the body, `COMMIT` on
success; on failure `ROLLBACK` and rethrow the original error.  Returns the
resulting store next to the propagated outcome. -/
def tx {σ ε : Type} (st : Store σ) (body : σ → Except ε σ) :
    Store σ × Except ε Unit :=
  match runInTx (beginImmediate st) body with
  | .ok st2 => (commitTx st2, .ok ())
  | .error e => (rollbackTx (beginImmediate st), .error e)

/-- Fixture account from the spec's resolver-precedence example:
`{id:"1", email:"a@x.com"}`. -/
def accA : AccountRow :=
  { id := "1", email := "a@x.com", google_user_id := "g1",
    display_name := none, scopes_json := "[]" }

/-- Fixture account from the spec's resolver-precedence example:
`{id:"2", email:"ab@x.com", displayName:"a"}`. -/
def accB : AccountRow :=
  { id := "2", email := "ab@x.com", google_user_id := "g2",
    display_name := some "a", scopes_json := "[]" }

/-- Fixture account whose email contains `axb`, used to exercise the `_`
LIKE wildcard. -/
def accC : AccountRow :=
  { id := "3", email := "axb@x.com", google_user_id := "g3",
    display_name := none, scopes_json := "[]" }

/-- Two-account fixture store. -/
def dbAB : DBModel := { accounts := [accA, accB], credentials := [] }

/-- One-account fixture store. -/
def dbA : DBModel := { accounts := [accA], credentials := [] }

/-- Empty fixture store. -/
def dbEmpty : DBModel := { accounts := [], credentials := [] }

/-- One-account fixture store for the LIKE wildcard counterexample. -/
def dbC : DBModel := { accounts := [accC], credentials := [] }

/-- Fixture account with a Latin-1 upper-case display name, used to exercise
the asymmetric case folding of the fuzzy tier. -/
def accE : AccountRow :=
  { id := "4", email := "elise@x.com", google_user_id := "g4",
    display_name := some "ÉLISE", scopes_json := "[]" }

/-- One-account fixture store for the case-folding counterexample. -/
def dbE : DBModel := { accounts := [accE], credentials := [] }

/-- Identity-permutation stand-in for the external block cipher, used only
to exercise the GCM model at concrete inputs. -/
def aesId : List Nat → Nat → Nat := fun _ b => b

/-- All-zero 32-byte key fixture. -/
def keyZ : List Nat := List.replicate 32 0

/-- Credential fixture: plaintext token present and non-empty while the
encrypted columns are also populated. -/
def credPlain : CredRow :=
  { account_id := "acct", refresh_token := some "tok",
    refresh_token_ct := [1], refresh_token_iv := [2], refresh_token_tag := [3] }

/-- Credential fixture: plaintext column holds the empty string. -/
def credEmptyTok : CredRow :=
  { account_id := "acct", refresh_token := some "",
    refresh_token_ct := [1], refresh_token_iv := [2], refresh_token_tag := [3] }

/-- Credential fixture: encrypted columns populated, no plaintext. -/
def credLocked : CredRow :=
  { account_id := "acct", refresh_token := none,
    refresh_token_ct := [9], refresh_token_iv := [], refresh_token_tag := [] }

/-- Credential fixture whose tag verifies under `aesId`/`keyZ` and the
account's bound associated data (empty ciphertext). -/
def credEncOk : CredRow :=
  { account_id := "acct", refresh_token := none,
    refresh_token_ct := [], refresh_token_iv := [],
    refresh_token_tag :=
      natToBeBytes 16 (gcmTagNat aesId keyZ [] (utf8Bytes (aadFor "acct")) []) }

/-- Store fixture with only a plaintext-token credential row. -/
def dbPlain : DBModel := { accounts := [], credentials := [credPlain] }

/-- Store fixture with only an empty-string-token credential row. -/
def dbEmptyTok : DBModel := { accounts := [], credentials := [credEmptyTok] }

/-- Store fixture with only an encrypted credential row whose tag fails. -/
def dbLocked : DBModel := { accounts := [], credentials := [credLocked] }

/-- Store fixture with only an encrypted credential row whose tag verifies. -/
def dbEncOk : DBModel := { accounts := [], credentials := [credEncOk] }

/-! ## Helper lemmas -/

/-- XOR-ing against the same keystream twice is the identity. -/
theorem xorKeystream_xorKeystream (ks : Nat → Nat) :
    ∀ (i : Nat) (l : List Nat), xorKeystream ks i (xorKeystream ks i l) = l := by
  intro i l
  induction l generalizing i with
  | nil => rfl
  | cons b rest ih =>
    simp [xorKeystream, ih, Nat.xor_assoc, Nat.xor_self, Nat.xor_zero]

/-- Membership in `suffixesOf` is the suffix relation. -/
theorem mem_suffixesOf {s2 s : List Char} : s2 ∈ suffixesOf s ↔ s2 <:+ s := by
  induction s with
  | nil => simp [suffixesOf, List.suffix_nil]
  | cons c s ih => simp [suffixesOf, List.suffix_cons_iff, ih]

/-- A pattern starting with `%` matches a subject exactly when the remaining
pattern matches some suffix of it. -/
theorem likeMatch_pct_iff {ps s : List Char} :
    likeMatch ('%' :: ps) s = true ↔ ∃ s2, s2 <:+ s ∧ likeMatch ps s2 = true := by
  simp [likeMatch, List.any_eq_true, mem_suffixesOf]

/-- A wildcard-free pattern followed by `%` matches a subject exactly when the
literal part is a prefix of it. -/
theorem likeMatch_lit_pct {p : List Char} (hp : ∀ c ∈ p, c ≠ '%' ∧ c ≠ '_') :
    ∀ s : List Char, likeMatch (p ++ ['%']) s = true ↔ p <+: s := by
  induction p with
  | nil =>
    intro s
    simp only [List.nil_append]
    constructor
    · intro _
      exact List.nil_prefix
    · intro _
      exact likeMatch_pct_iff.mpr ⟨[], List.nil_suffix, by simp [likeMatch]⟩
  | cons a p ih =>
    intro s
    have ha := hp a (by simp)
    have hp2 : ∀ c ∈ p, c ≠ '%' ∧ c ≠ '_' := fun c hc => hp c (by simp [hc])
    cases s with
    | nil => simp [likeMatch, ha.1, List.prefix_nil]
    | cons c s2 =>
      simp [likeMatch, ha.1, ha.2, List.cons_prefix_cons, ih hp2 s2]

/-- For a wildcard-free parameter `q` the source's `LIKE '%q%'` test is
exactly substring containment. -/
theorem likeContains_substr {q s : List Char} (hq : ∀ c ∈ q, c ≠ '%' ∧ c ≠ '_') :
    likeContains q s = true ↔ q <:+: s := by
  unfold likeContains
  rw [likeMatch_pct_iff]
  constructor
  · rintro ⟨t, hts, hm⟩
    exact List.infix_iff_prefix_suffix.mpr ⟨t, (likeMatch_lit_pct hq t).mp hm, hts⟩
  · intro h
    obtain ⟨t, hpt, hts⟩ := List.infix_iff_prefix_suffix.mp h
    exact ⟨t, hts, (likeMatch_lit_pct hq t).mpr hpt⟩

/-- On ASCII characters the JavaScript lowercase agrees with the ASCII fold
of SQLite `LOWER`. -/
theorem jsCharLower_ascii {c : Char} (h : c.toNat < 128) :
    jsCharLower c = Char.toLower c := by
  simp only [jsCharLower, Char.toLower]
  split_ifs <;> first | rfl | omega

/-- On all-ASCII strings the key-side fold and the column-side fold agree. -/
theorem jsLowerChars_eq_foldChars {s : String}
    (h : ∀ c ∈ s.data, c.toNat < 128) : jsLowerChars s = foldChars s :=
  List.map_congr_left (fun c hc => jsCharLower_ascii (h c hc))

/-- For an all-ASCII, wildcard-free key the source's fuzzy predicate agrees
with the spec-side substring predicate. -/
theorem fuzzyLike_eq_specFuzzy {t : String}
    (hA : ∀ c ∈ t.data, c.toNat < 128)
    (hw : ∀ c ∈ foldChars t, c ≠ '%' ∧ c ≠ '_') (a : AccountRow) :
    fuzzyLike t a = specFuzzy t a := by
  rw [Bool.eq_iff_iff]
  simp [fuzzyLike, specFuzzy, jsLowerChars_eq_foldChars hA, likeContains_substr hw]

/-- Totality of the byte-order comparison. -/
theorem charListLe_total :
    ∀ x y : List Char, charListLe x y = true ∨ charListLe y x = true := by
  intro x
  induction x with
  | nil => exact fun _ => Or.inl rfl
  | cons a as ih =>
    intro y
    cases y with
    | nil => exact Or.inr rfl
    | cons b bs =>
      simp only [charListLe]
      rcases Nat.lt_trichotomy a.toNat b.toNat with h | h | h
      · left
        simp [h]
      · rw [h]
        simp only [Nat.lt_irrefl, if_false, if_pos rfl]
        exact ih bs
      · right
        simp [h]

/-- Transitivity of the byte-order comparison. -/
theorem charListLe_trans :
    ∀ x y z : List Char, charListLe x y = true → charListLe y z = true →
      charListLe x z = true := by
  intro x
  induction x with
  | nil => intros; rfl
  | cons a as ih =>
    intro y z hxy hyz
    cases y with
    | nil => simp [charListLe] at hxy
    | cons b bs =>
      cases z with
      | nil => simp [charListLe] at hyz
      | cons c cs =>
        simp only [charListLe] at hxy hyz ⊢
        split_ifs at hxy hyz ⊢ <;>
          first
          | rfl
          | exact ih bs cs hxy hyz
          | omega

/-! ## Claim theorems -/

/-- C4: for every key, plaintext and associated data, decrypting the
`(ciphertext, iv, tag)` triple produced by `encryptAesGcm` with the same key
and associated data via `decryptAesGcm` returns exactly the plaintext, for
any block cipher `aes` (in particular AES-256). -/
theorem encryptAesGcm_decryptAesGcm_roundtrip
    (aes : List Nat → Nat → Nat) (key iv pt aad : List Nat)
    (_hkey : key.length = 32) (_hiv : iv.length = 12) :
    decryptAesGcm aes key iv (encryptAesGcm aes key iv pt aad).2.2
      (encryptAesGcm aes key iv pt aad).1 aad = some pt := by
  simp [encryptAesGcm, decryptAesGcm, xorKeystream_xorKeystream]

/-- Witness for C4 at a concrete key, IV, plaintext and associated data. -/
theorem encryptAesGcm_decryptAesGcm_roundtrip_witness :
    (List.replicate 32 0).length = 32 ∧ (List.replicate 12 7).length = 12 ∧
      decryptAesGcm (fun _ b => b) (List.replicate 32 0) (List.replicate 12 7)
        (encryptAesGcm (fun _ b => b) (List.replicate 32 0) (List.replicate 12 7)
          [10, 200, 7] [3]).2.2
        (encryptAesGcm (fun _ b => b) (List.replicate 32 0) (List.replicate 12 7)
          [10, 200, 7] [3]).1
        [3] = some [10, 200, 7] :=
  ⟨by decide, by decide,
    encryptAesGcm_decryptAesGcm_roundtrip _ _ _ _ _ (by decide) (by decide)⟩

/-- C8: a transaction body either completes and its final state is committed
as a whole, or it fails and the committed snapshot is untouched while the
original error propagates; in particular a multi-step body whose later step
fails commits none of its mutations. -/
theorem tx_atomic {σ ε : Type} (st : Store σ) (body : σ → Except ε σ) :
    (∀ s2, body st.committed = .ok s2 → tx st body = (⟨s2, none⟩, .ok ())) ∧
    (∀ e, body st.committed = .error e →
      tx st body = (⟨st.committed, none⟩, .error e)) ∧
    (∀ (f g : σ → Except ε σ) (s1 : σ) (e : ε), f st.committed = .ok s1 →
      g s1 = .error e →
      tx st (fun s => (f s).bind g) = (⟨st.committed, none⟩, .error e)) := by
  refine ⟨fun s2 h => ?_, fun e h => ?_, fun f g s1 e hf hg => ?_⟩
  · simp [tx, runInTx, beginImmediate, commitTx, rollbackTx, h, Except.map]
  · simp [tx, runInTx, beginImmediate, commitTx, rollbackTx, h, Except.map]
  · simp [tx, runInTx, beginImmediate, commitTx, rollbackTx, hf, hg,
      Except.map, Except.bind]

/-- Witness for C8: a two-step body whose second step fails leaves the
committed state unchanged and propagates the error. -/
theorem tx_atomic_witness :
    ((fun s : Nat => (Except.ok (s + 1) : Except String Nat)) 0 = .ok 1) ∧
      tx (⟨0, none⟩ : Store Nat)
        (fun s => (Except.ok (s + 1)).bind
          (fun _ => (Except.error "boom" : Except String Nat))) =
        (⟨0, none⟩, .error "boom") :=
  ⟨rfl,
    (tx_atomic (⟨0, none⟩ : Store Nat)
        (fun s => (Except.ok (s + 1)).bind
          (fun _ => (Except.error "boom" : Except String Nat)))).2.2
      (fun s => .ok (s + 1)) (fun _ => .error "boom") 1 "boom" rfl rfl⟩

/-- C9: with the read-only flag set, `createEvent`, `updateEvent` and
`deleteEvent` fail with the read-only error — whose message is exactly
"Server is in read-only mode" — for every store, DEK, account and input,
before any credential is consulted; `listEvents` and `getEvent` are
unaffected by the flag (and `listAccounts`/`resolveAccount` never take the
configuration at all). -/
theorem readOnly_gating {β β2 γ : Type}
    (remoteList : List Nat → String → β → γ)
    (remoteGet : List Nat → String → String → γ)
    (remoteCreate : List Nat → String → β → γ)
    (remoteUpd : List Nat → String → String → β2 → γ)
    (remoteDel : List Nat → String → String → γ)
    (aes : List Nat → Nat → Nat) (db : DBModel) (dek : Option (List Nat))
    (accountId calendarId eventId : String) (event : β) (patch : β2) (opts : β) :
    createEvent remoteCreate aes ⟨db, dek, true⟩ accountId calendarId event =
        .error .readOnlyMode ∧
    updateEvent remoteUpd aes ⟨db, dek, true⟩ accountId calendarId eventId patch =
        .error .readOnlyMode ∧
    deleteEvent remoteDel aes ⟨db, dek, true⟩ accountId calendarId eventId =
        .error .readOnlyMode ∧
    CalError.message .readOnlyMode = "Server is in read-only mode" ∧
    listEvents remoteList aes ⟨db, dek, true⟩ accountId calendarId opts =
      listEvents remoteList aes ⟨db, dek, false⟩ accountId calendarId opts ∧
    getEvent remoteGet aes ⟨db, dek, true⟩ accountId calendarId eventId =
      getEvent remoteGet aes ⟨db, dek, false⟩ accountId calendarId eventId :=
  ⟨rfl, rfl, rfl, rfl, rfl, rfl⟩

/-- C1: whenever some stored account's `id` or `email` byte-equals the
trimmed key, `resolveAccount` succeeds with an exactly-matching account —
the fuzzy tier and its ambiguity failure are never consulted; and when a key
equals one account's email while no other account matches the key exactly,
that account itself is returned, whatever substring relationships the key
has with other accounts' emails or display names. -/
theorem resolveAccount_exact_wins (db : DBModel) (k : String) (hk : jsTrim k ≠ "") :
    ((∃ a ∈ db.accounts, a.id = jsTrim k ∨ a.email = jsTrim k) →
      ∃ b ∈ db.accounts, (b.id = jsTrim k ∨ b.email = jsTrim k) ∧
        resolveAccount db (some k) = .ok b) ∧
    (∀ a ∈ db.accounts, a.email = jsTrim k →
      (∀ b ∈ db.accounts, b.id ≠ jsTrim k) →
      (∀ b ∈ db.accounts, b.email = jsTrim k → b = a) →
      resolveAccount db (some k) = .ok a) := by
  constructor
  · rintro ⟨a, ha, hma⟩
    have hsome : (db.accounts.find? (exactPred (jsTrim k))).isSome := by
      rw [List.find?_isSome]
      exact ⟨a, ha, by simpa [exactPred] using hma⟩
    obtain ⟨b, hfind⟩ := Option.isSome_iff_exists.mp hsome
    refine ⟨b, List.mem_of_find?_eq_some hfind, ?_, ?_⟩
    · simpa [exactPred] using List.find?_some hfind
    · simp [resolveAccount, hk, hfind]
  · intro a ha hae hids huniq
    have hsome : (db.accounts.find? (exactPred (jsTrim k))).isSome := by
      rw [List.find?_isSome]
      exact ⟨a, ha, by simp [exactPred, hae]⟩
    obtain ⟨b, hfind⟩ := Option.isSome_iff_exists.mp hsome
    have hbm := List.mem_of_find?_eq_some hfind
    have hb2 : b.id = jsTrim k ∨ b.email = jsTrim k := by
      simpa [exactPred] using List.find?_some hfind
    have hba : b = a := by
      rcases hb2 with h | h
      · exact absurd h (hids b hbm)
      · exact huniq b hbm h
    rw [hba] at hfind
    simp [resolveAccount, hk, hfind]

/-- Witness for C1 on the spec's precedence example: the key `a@x.com`
resolves to the account with that email even though it is also a
case-insensitive substring match for the other account. -/
theorem resolveAccount_exact_wins_witness :
    jsTrim "a@x.com" ≠ "" ∧ resolveAccount dbAB (some "a@x.com") = .ok accA :=
  ⟨by decide,
    (resolveAccount_exact_wins dbAB "a@x.com" (by decide)).2 accA (by decide)
      (by decide) (by decide) (by decide)⟩

/-- C2 counterexample, two independent failure modes of the claim's
substring reading.  First, the key `a_b` is non-empty after trimming,
matches no account exactly, and is not a substring of the stored account's
case-folded email or display name — the claim then requires
`AccountNotFoundError` — yet `resolveAccount` returns the account, because
the key reaches SQLite `LIKE` as an unescaped pattern and `_` matches the
`x` of `axb@x.com`.  Second, the wildcard-free key `É` is a substring of the
display name `ÉLISE` under the column-side ASCII fold and equally under the
key-side Unicode fold — the claim then requires the account to be collected
and returned — yet `resolveAccount` fails with `AccountNotFoundError`,
because the pattern is Unicode-lowercased to `é` while `LOWER` leaves the
column's `É` unchanged and `LIKE` is case-sensitive beyond ASCII. -/
theorem resolveAccount_fuzzy_cex :
    (jsTrim "a_b" = "a_b" ∧
      (∀ a ∈ dbC.accounts, a.id ≠ "a_b" ∧ a.email ≠ "a_b") ∧
      (∀ a ∈ dbC.accounts, specFuzzy "a_b" a = false) ∧
      resolveAccount dbC (some "a_b") = .ok accC) ∧
    (jsTrim "É" = "É" ∧
      (∀ a ∈ dbE.accounts, a.id ≠ "É" ∧ a.email ≠ "É") ∧
      (∀ c ∈ "É".data, c ≠ '%' ∧ c ≠ '_') ∧
      specFuzzy "É" accE = true ∧
      (jsLowerChars "É" <:+: jsLowerChars "ÉLISE") ∧
      resolveAccount dbE (some "É") = .error (.notFound "É")) := by
  decide

/-- C2 (amended): for every non-empty trimmed key made of ASCII characters
only, none of them a SQL `LIKE` wildcard (`%` or `_`), that matches no
account exactly, the fuzzy candidate list holds exactly the accounts whose
ASCII-case-folded email or ASCII-case-folded display name (missing display
name as empty string) contains the ASCII-case-folded key as a substring, is
ordered by email ascending, and `resolveAccount` returns the single
candidate, fails with the not-found error on zero candidates, and fails with
the ambiguity error carrying the candidates' emails on two or more.  (On
ASCII keys the key-side Unicode fold and the column-side ASCII fold
provably coincide; `resolveAccount_fuzzy_cex` shows both restrictions are
forced.) -/
theorem resolveAccount_fuzzy_tier (db : DBModel) (k : String)
    (hk : jsTrim k ≠ "")
    (hA : ∀ c ∈ (jsTrim k).data, c.toNat < 128)
    (hx : ∀ a ∈ db.accounts, a.id ≠ jsTrim k ∧ a.email ≠ jsTrim k)
    (hw : ∀ c ∈ foldChars (jsTrim k), c ≠ '%' ∧ c ≠ '_') :
    (fuzzyCandidates db (jsTrim k)).Perm
        (db.accounts.filter (specFuzzy (jsTrim k))) ∧
    List.Pairwise emailLe (fuzzyCandidates db (jsTrim k)) ∧
    (∀ a, fuzzyCandidates db (jsTrim k) = [a] →
      resolveAccount db (some k) = .ok a) ∧
    (fuzzyCandidates db (jsTrim k) = [] →
      resolveAccount db (some k) = .error (.notFound (jsTrim k))) ∧
    (2 ≤ (fuzzyCandidates db (jsTrim k)).length →
      resolveAccount db (some k) =
        .error (.ambiguous (jsTrim k)
          ((fuzzyCandidates db (jsTrim k)).map (fun a => a.email)))) := by
  have hfind : db.accounts.find? (exactPred (jsTrim k)) = none := by
    rw [List.find?_eq_none]
    intro a ha
    simp [exactPred, (hx a ha).1, (hx a ha).2]
  have hflt : fuzzyCandidates db (jsTrim k) =
      (sortByEmail db.accounts).filter (specFuzzy (jsTrim k)) :=
    List.filter_congr (fun a _ => fuzzyLike_eq_specFuzzy hA hw a)
  refine ⟨?_, ?_, ?_, ?_, ?_⟩
  · rw [hflt]
    exact (List.perm_insertionSort emailLe db.accounts).filter _
  · haveI : IsTotal AccountRow emailLe :=
      ⟨fun a b => charListLe_total a.email.data b.email.data⟩
    haveI : IsTrans AccountRow emailLe :=
      ⟨fun a b c => charListLe_trans a.email.data b.email.data c.email.data⟩
    exact List.Pairwise.filter _ (List.sorted_insertionSort emailLe db.accounts)
  · intro a hone
    simp [resolveAccount, hk, hfind, hone]
  · intro hnone
    simp [resolveAccount, hk, hfind, hnone]
  · intro h2
    rcases hc : fuzzyCandidates db (jsTrim k) with _ | ⟨x, _ | ⟨y, rest⟩⟩
    · rw [hc] at h2
      simp at h2
    · rw [hc] at h2
      simp at h2
    · simp [resolveAccount, hk, hfind, hc]

/-- Witness for C2 (amended): the key `x.com` is an ambiguous substring of
both fixture emails, and the key `ab` is a unique substring match. -/
theorem resolveAccount_fuzzy_tier_witness :
    resolveAccount dbAB (some "x.com") =
        .error (.ambiguous "x.com" ["a@x.com", "ab@x.com"]) ∧
      resolveAccount dbAB (some "ab") = .ok accB := by
  constructor
  · have h := (resolveAccount_fuzzy_tier dbAB "x.com" (by decide) (by decide)
      (by decide) (by decide)).2.2.2.2 (by decide)
    rw [h]
    decide
  · exact (resolveAccount_fuzzy_tier dbAB "ab" (by decide) (by decide)
      (by decide) (by decide)).2.2.1 accB (by decide)

/-- C3: with a key that is empty after trimming (or omitted),
`resolveAccount` fails with the no-accounts error on an empty store, returns
the unique account on a one-account store, and fails with the ambiguity
error carrying no candidates — the "Multiple accounts linked" message — on a
store with two or more accounts. -/
theorem resolveAccount_empty_key (db : DBModel) (key : Option String)
    (hk : jsTrim (key.getD "") = "") :
    (db.accounts = [] → resolveAccount db key = .error .noAccounts) ∧
    (∀ a, db.accounts = [a] → resolveAccount db key = .ok a) ∧
    (2 ≤ db.accounts.length →
      resolveAccount db key = .error (.ambiguous "" [])) ∧
    CalError.message (.ambiguous "" []) =
      "Multiple accounts linked. Specify an email or id, or call list_accounts to choose." := by
  refine ⟨?_, ?_, ?_, rfl⟩
  · intro h
    simp [resolveAccount, hk, listAccounts, sortByEmail, h, List.insertionSort]
  · intro a h
    simp [resolveAccount, hk, listAccounts, sortByEmail, h, List.insertionSort,
      List.orderedInsert]
  · intro h
    have hlen : (listAccounts db).length = db.accounts.length :=
      (List.perm_insertionSort emailLe db.accounts).length_eq
    rcases hl : listAccounts db with _ | ⟨x, _ | ⟨y, rest⟩⟩
    · rw [hl] at hlen
      rw [← hlen] at h
      simp at h
    · rw [hl] at hlen
      rw [← hlen] at h
      simp at h
    · simp [resolveAccount, hk, hl]

/-- Witness for C3 on the empty, one-account and two-account fixtures. -/
theorem resolveAccount_empty_key_witness :
    jsTrim ((none : Option String).getD "") = "" ∧
      resolveAccount dbEmpty none = .error .noAccounts ∧
      resolveAccount dbA none = .ok accA ∧
      resolveAccount dbAB none = .error (.ambiguous "" []) :=
  ⟨by decide,
    (resolveAccount_empty_key dbEmpty none (by decide)).1 rfl,
    (resolveAccount_empty_key dbA none (by decide)).2.1 accA rfl,
    (resolveAccount_empty_key dbAB none (by decide)).2.2.1 (by decide)⟩

/-- C6: `getCalendarClient` fails with the credentials-not-found error when
no credential row exists for the account; with no usable plaintext it fails
with the locked-database error when no DEK was supplied, and otherwise
decrypts the encrypted columns under the per-account associated data
`credentials.refresh_token:<accountId>:v1`, failing with the authentication
error exactly when the AEAD rejects; with a truthy plaintext token the
secret is returned directly, whatever DEK (if any) was supplied. -/
theorem getCalendarClient_paths (aes : List Nat → Nat → Nat) (db : DBModel)
    (dek : Option (List Nat)) (ro : Bool) (accountId : String) :
    (db.credentials.find? (fun r => r.account_id = accountId) = none →
      getCalendarClient aes ⟨db, dek, ro⟩ accountId = .error .credentialsNotFound) ∧
    (∀ cred, db.credentials.find? (fun r => r.account_id = accountId) = some cred →
      tokenTruthy cred.refresh_token = false →
      ((dek = none →
          getCalendarClient aes ⟨db, dek, ro⟩ accountId = .error .databaseLocked) ∧
        (∀ kk, dek = some kk →
          (decryptAesGcm aes kk cred.refresh_token_iv cred.refresh_token_tag
              cred.refresh_token_ct (utf8Bytes (aadFor accountId)) = none →
            getCalendarClient aes ⟨db, dek, ro⟩ accountId = .error .authFailure) ∧
          (∀ pt, decryptAesGcm aes kk cred.refresh_token_iv cred.refresh_token_tag
              cred.refresh_token_ct (utf8Bytes (aadFor accountId)) = some pt →
            getCalendarClient aes ⟨db, dek, ro⟩ accountId = .ok pt)))) ∧
    (∀ cred s, db.credentials.find? (fun r => r.account_id = accountId) = some cred →
      cred.refresh_token = some s → s ≠ "" →
      getCalendarClient aes ⟨db, dek, ro⟩ accountId = .ok (utf8Bytes s)) := by
  refine ⟨?_, ?_, ?_⟩
  · intro h
    simp [getCalendarClient, h]
  · intro cred hfind htok
    refine ⟨?_, ?_⟩
    · intro hdek
      simp [getCalendarClient, hfind, htok, hdek]
    · intro kk hdek
      refine ⟨?_, ?_⟩
      · intro hdec
        simp [getCalendarClient, hfind, htok, hdek, hdec]
      · intro pt hdec
        simp [getCalendarClient, hfind, htok, hdek, hdec]
  · intro cred s hfind hs hne
    simp [getCalendarClient, hfind, hs, tokenTruthy, hne]

set_option maxRecDepth 200000 in
/-- Witness for C6 covering all five paths: missing row, locked, failed
authentication, successful decryption and plaintext passthrough. -/
theorem getCalendarClient_paths_witness :
    getCalendarClient aesId ⟨dbEmpty, none, false⟩ "acct" =
        .error .credentialsNotFound ∧
      getCalendarClient aesId ⟨dbLocked, none, false⟩ "acct" =
        .error .databaseLocked ∧
      getCalendarClient aesId ⟨dbLocked, some keyZ, false⟩ "acct" =
        .error .authFailure ∧
      getCalendarClient aesId ⟨dbEncOk, some keyZ, false⟩ "acct" = .ok [] ∧
      getCalendarClient aesId ⟨dbPlain, none, false⟩ "acct" =
        .ok (utf8Bytes "tok") :=
  ⟨(getCalendarClient_paths aesId dbEmpty none false "acct").1 rfl,
    ((getCalendarClient_paths aesId dbLocked none false "acct").2.1 credLocked
        rfl (by decide)).1 rfl,
    (((getCalendarClient_paths aesId dbLocked (some keyZ) false "acct").2.1
        credLocked rfl (by decide)).2 keyZ rfl).1 (by decide),
    ((((getCalendarClient_paths aesId dbEncOk (some keyZ) false "acct").2.1
        credEncOk rfl (by decide)).2 keyZ rfl).2 [] (by decide)),
    (getCalendarClient_paths aesId dbPlain none false "acct").2.2 credPlain
      "tok" rfl rfl (by decide)⟩

/-- C10: a credential row with a non-empty plaintext token is used directly —
the result is the plaintext secret and is independent of the supplied DEK and
of the block cipher, so `decryptAesGcm` is never consulted even when the
encrypted columns are populated; a row whose plaintext column holds the
empty string is treated as absent and routes to the encrypted branch, so
with no DEK it fails with the locked-database error instead of returning the
empty secret. -/
theorem getCalendarClient_plaintext_wins (aes aes2 : List Nat → Nat → Nat)
    (db : DBModel) (dek dek2 : Option (List Nat)) (ro ro2 : Bool)
    (accountId : String) :
    (∀ cred s, db.credentials.find? (fun r => r.account_id = accountId) = some cred →
      cred.refresh_token = some s → s ≠ "" →
      getCalendarClient aes ⟨db, dek, ro⟩ accountId = .ok (utf8Bytes s) ∧
      getCalendarClient aes ⟨db, dek, ro⟩ accountId =
        getCalendarClient aes2 ⟨db, dek2, ro2⟩ accountId) ∧
    (∀ cred, db.credentials.find? (fun r => r.account_id = accountId) = some cred →
      cred.refresh_token = some "" → dek = none →
      getCalendarClient aes ⟨db, dek, ro⟩ accountId = .error .databaseLocked) := by
  refine ⟨?_, ?_⟩
  · intro cred s hfind hs hne
    constructor
    · simp [getCalendarClient, hfind, hs, tokenTruthy, hne]
    · simp [getCalendarClient, hfind, hs, tokenTruthy, hne]
  · intro cred hfind hs hdek
    simp [getCalendarClient, hfind, hs, tokenTruthy, hdek]

/-- Witness for C10: the plaintext row (with populated encrypted columns) is
served without a DEK and identically under a different DEK and cipher; the
empty-string row fails locked without a DEK. -/
theorem getCalendarClient_plaintext_wins_witness :
    getCalendarClient aesId ⟨dbPlain, none, false⟩ "acct" =
        .ok (utf8Bytes "tok") ∧
      getCalendarClient aesId ⟨dbPlain, none, false⟩ "acct" =
        getCalendarClient (fun _ _ => 0) ⟨dbPlain, some keyZ, true⟩ "acct" ∧
      getCalendarClient aesId ⟨dbEmptyTok, none, false⟩ "acct" =
        .error .databaseLocked :=
  ⟨((getCalendarClient_plaintext_wins aesId (fun _ _ => 0) dbPlain none
        (some keyZ) false true "acct").1 credPlain "tok" rfl rfl (by decide)).1,
    ((getCalendarClient_plaintext_wins aesId (fun _ _ => 0) dbPlain none
        (some keyZ) false true "acct").1 credPlain "tok" rfl rfl (by decide)).2,
    (getCalendarClient_plaintext_wins aesId aesId dbEmptyTok none none false
        false "acct").2 credEmptyTok rfl rfl rfl⟩

/-- C7: `deriveKek` estimates `128 * N * r` bytes, first calls the KDF with
ceiling `max(64 MiB, 2 * estimate)`; a memory-ceiling failure triggers
exactly one retry at ceiling `max(4 * 64 MiB, 8 * estimate)` whose outcome —
success or failure — is final, while any other failure propagates without a
retry; consequently, against a KDF that succeeds exactly when the ceiling
reaches its memory need, a derivation whose need exceeds the first ceiling
but not the escalated one succeeds on the retry. -/
theorem deriveKek_memory_retry (params : KdfParams) (need : Nat)
    (key : List Nat) (msg : String) :
    (∀ scryptImpl : Nat → Except KdfError (List Nat),
      scryptImpl (max kdfBaseMax (128 * params.N * params.r * 2)) = .ok key →
      deriveKek scryptImpl params = .ok key) ∧
    (∀ scryptImpl : Nat → Except KdfError (List Nat),
      scryptImpl (max kdfBaseMax (128 * params.N * params.r * 2)) =
          .error .memoryExceeded →
      deriveKek scryptImpl params =
        scryptImpl (max (kdfBaseMax * 4) (128 * params.N * params.r * 8))) ∧
    (∀ scryptImpl : Nat → Except KdfError (List Nat),
      scryptImpl (max kdfBaseMax (128 * params.N * params.r * 2)) =
          .error (.other msg) →
      deriveKek scryptImpl params = .error (.other msg)) ∧
    (need ≤ max kdfBaseMax (128 * params.N * params.r * 2) →
      deriveKek (fun m => if m < need then .error .memoryExceeded else .ok key)
        params = .ok key) ∧
    (max kdfBaseMax (128 * params.N * params.r * 2) < need →
      need ≤ max (kdfBaseMax * 4) (128 * params.N * params.r * 8) →
      deriveKek (fun m => if m < need then .error .memoryExceeded else .ok key)
        params = .ok key) ∧
    (max (kdfBaseMax * 4) (128 * params.N * params.r * 8) < need →
      deriveKek (fun m => if m < need then .error .memoryExceeded else .ok key)
        params = .error .memoryExceeded) := by
  have hB : kdfBaseMax = 67108864 := rfl
  refine ⟨?_, ?_, ?_, ?_, ?_, ?_⟩
  · intro f h
    simp [deriveKek, h]
  · intro f h
    simp [deriveKek, h]
  · intro f h
    simp [deriveKek, h]
  · intro h
    have h1 : ¬ (max kdfBaseMax (128 * params.N * params.r * 2) < need) := by omega
    simp [deriveKek, h1]
  · intro h1 h2
    have h3 : ¬ (max (kdfBaseMax * 4) (128 * params.N * params.r * 8) < need) := by
      omega
    simp [deriveKek, h1, h3]
  · intro h
    have h1 : max kdfBaseMax (128 * params.N * params.r * 2) < need := by omega
    simp [deriveKek, h1, h]

/-- Witness for C7 with `N = r = p = 1`: the first ceiling is 64 MiB and the
escalated one 256 MiB; a 1000-byte need succeeds at once, a 100 MB need
succeeds only on the retry, a 300 MB need exhausts the retry, and a
non-memory failure propagates untouched. -/
theorem deriveKek_memory_retry_witness :
    deriveKek (fun m => if m < 1000 then .error .memoryExceeded else .ok [7])
        ⟨1, 1, 1, 32⟩ = .ok [7] ∧
      deriveKek (fun m => if m < 100000000 then .error .memoryExceeded else .ok [7])
        ⟨1, 1, 1, 32⟩ = .ok [7] ∧
      deriveKek (fun m => if m < 300000000 then .error .memoryExceeded else .ok [7])
        ⟨1, 1, 1, 32⟩ = .error .memoryExceeded ∧
      deriveKek (fun _ => .error (.other "boom")) ⟨1, 1, 1, 32⟩ =
        .error (.other "boom") :=
  ⟨(deriveKek_memory_retry ⟨1, 1, 1, 32⟩ 1000 [7] "boom").2.2.2.1 (by decide),
    (deriveKek_memory_retry ⟨1, 1, 1, 32⟩ 100000000 [7] "boom").2.2.2.2.1
      (by decide) (by decide),
    (deriveKek_memory_retry ⟨1, 1, 1, 32⟩ 300000000 [7] "boom").2.2.2.2.2
      (by decide),
    (deriveKek_memory_retry ⟨1, 1, 1, 32⟩ 0 [7] "boom").2.2.1
      (fun _ => .error (.other "boom")) rfl⟩
